import Mathlib

/-!
Shallow embedding of the pagination core of the edlink-effect-sdk repository.

The embedding covers:
* the traversal state and the three pagination strategies
  (`src/types/pagination/pages.ts`, `records.ts`, `all.ts`),
* strategy selection over raw configuration values
  (`selectStrategy` in `src/strategies/pagination/index.ts`),
* the strategy-based paginated stream of `src/services/edlink-client.ts`
  (`createPaginatedStream`, modelled as a fuelled unfold that also counts
  page fetches and records the surfaced error, if any),
* the older inline paginated stream found in
  `src/strategies/pagination/paginationStrategy.ts`.

TypeScript `number` limits are modelled as `Nat`: the spec constrains
`maxPages` and `maxRecords` to non-negative integers, and the traversal
counters start at 0 and only grow.  JavaScript string falsiness (`!s`) is
the test `s = ""`; a nullable field is an `Option`.
-/

/-- State tracked during pagination traversal (`PaginationState` in
`paginationStrategy.ts`). -/
structure PaginationState where
  nextUrl : String
  pageCount : Nat
  recordCount : Nat
deriving DecidableEq, Repr

/-- `PaginateByPages` configuration (`{ type: 'pages', maxPages }`). -/
structure PaginateByPages where
  maxPages : Nat
deriving DecidableEq, Repr

/-- `PaginateByRecords` configuration (`{ type: 'records', maxRecords }`). -/
structure PaginateByRecords where
  maxRecords : Nat
deriving DecidableEq, Repr

/-- `PaginateAll` configuration (`{ type: 'all' }`). -/
structure PaginateAll where
deriving DecidableEq, Repr

/-- The `PaginationConfig` discriminated union of `types/pagination.ts`. -/
inductive PaginationConfig where
  | pages (config : PaginateByPages)
  | records (config : PaginateByRecords)
  | all (config : PaginateAll)
deriving DecidableEq, Repr

/-- The `PaginationStrategy<T>` interface of `paginationStrategy.ts`:
a bundle of the five per-strategy operations, parameterised by the
configuration type `C` and the item type `α`. -/
structure PaginationStrategy (C : Type) (α : Type) where
  shouldContinue : PaginationState → C → Bool
  updateState : PaginationState → Nat → C → PaginationState
  calculateItemsToEmit : List α → PaginationState → C → List α
  shouldStopAfterPage : Nat → C → Bool
  getNextUrl : Option String → Nat → C → String

/-- JavaScript falsiness of a nullable string (`!nextCursor`): both `null`
and the empty string are falsy. -/
def jsFalsyCursor : Option String → Bool
  | none => true
  | some s => s == ""

/-- `byPagesStrategy` from `types/pagination/pages.ts`. -/
def byPagesStrategy (α : Type) : PaginationStrategy PaginateByPages α where
  shouldContinue := fun state config => decide (state.pageCount < config.maxPages)
  updateState := fun state itemCount _ =>
    { nextUrl := state.nextUrl
      pageCount := state.pageCount + 1
      recordCount := state.recordCount + itemCount }
  calculateItemsToEmit := fun items _ _ => items
  shouldStopAfterPage := fun _ _ => false
  getNextUrl := fun nextCursor _ _ => nextCursor.getD ""

/-- `byRecordsStrategy` from `types/pagination/records.ts`.  The slice
`items.slice(0, maxRecords - recordCount)` is `List.take`; the subtraction
is taken in `Nat` (at every call site of the traversal the guard
`recordCount < maxRecords` has already passed, so the difference is the
same as in JavaScript). -/
def byRecordsStrategy (α : Type) : PaginationStrategy PaginateByRecords α where
  shouldContinue := fun state config => decide (state.recordCount < config.maxRecords)
  updateState := fun state itemCount _ =>
    { nextUrl := state.nextUrl
      pageCount := state.pageCount + 1
      recordCount := state.recordCount + itemCount }
  calculateItemsToEmit := fun items state config =>
    let newRecordCount := state.recordCount + items.length
    if newRecordCount ≤ config.maxRecords then items
    else items.take (config.maxRecords - state.recordCount)
  shouldStopAfterPage := fun newRecordCount config =>
    decide (config.maxRecords ≤ newRecordCount)
  getNextUrl := fun nextCursor newRecordCount config =>
    if decide (config.maxRecords ≤ newRecordCount) || jsFalsyCursor nextCursor then ""
    else nextCursor.getD ""

/-- `allStrategy` from `types/pagination/all.ts`. -/
def allStrategy (α : Type) : PaginationStrategy PaginateAll α where
  shouldContinue := fun _ _ => true
  updateState := fun state itemCount _ =>
    { nextUrl := state.nextUrl
      pageCount := state.pageCount + 1
      recordCount := state.recordCount + itemCount }
  calculateItemsToEmit := fun items _ _ => items
  shouldStopAfterPage := fun _ _ => false
  getNextUrl := fun nextCursor _ _ => nextCursor.getD ""

/-- A raw (untyped) pagination configuration value as seen by the runtime
type guards: a `type` tag plus the two optional numeric fields (`some`
means the field is present and is a number). -/
structure RawPaginationConfig where
  type : String
  maxPages : Option Int
  maxRecords : Option Int
deriving DecidableEq, Repr

/-- Type guard `isPaginateByPages` (`pages.ts`): tag `'pages'` and a
numeric `maxPages` field. -/
def isPaginateByPages (config : RawPaginationConfig) : Bool :=
  config.type == "pages" && config.maxPages.isSome

/-- Type guard `isPaginateByRecords` (`records.ts`): tag `'records'` and a
numeric `maxRecords` field. -/
def isPaginateByRecords (config : RawPaginationConfig) : Bool :=
  config.type == "records" && config.maxRecords.isSome

/-- Type guard `isPaginateAll` (`all.ts`): tag `'all'`. -/
def isPaginateAll (config : RawPaginationConfig) : Bool :=
  config.type == "all"

/-- The strategy object chosen by `selectStrategy`. -/
inductive SelectedStrategy where
  | byPages
  | byRecords
  | allRecords
deriving DecidableEq, Repr

/-- `selectStrategy` from `strategies/pagination/index.ts`: dispatch on the
three type guards; an unrecognised configuration throws
(`Except.error`). -/
def selectStrategy (config : RawPaginationConfig) : Except String SelectedStrategy :=
  if isPaginateByPages config then .ok .byPages
  else if isPaginateByRecords config then .ok .byRecords
  else if isPaginateAll config then .ok .allRecords
  else .error ("Unknown pagination config type: " ++ config.type)

/-- Decoded page (`EdlinkPaginatedResponse<T>` in `types/edlink.ts`):
wire fields `$data` (possibly missing) and `$next` (`null` meaning end of
data). -/
structure EdlinkPaginatedResponse (α : Type) where
  data : Option (List α)
  next : Option String
deriving DecidableEq, Repr

/-- Result of a single page fetch by the HTTP collaborator: a decoded page
or a transport failure carrying a message. -/
inductive FetchResult (α : Type) where
  | success (page : EdlinkPaginatedResponse α)
  | failure (message : String)
deriving DecidableEq, Repr

/-- One invocation of `selectStrategy(config).shouldContinue(state, config)`
as performed by `createPaginatedStream` in `edlink-client.ts`. -/
def configShouldContinue (config : PaginationConfig) (state : PaginationState) : Bool :=
  match config with
  | .pages c => (byPagesStrategy Unit).shouldContinue state c
  | .records c => (byRecordsStrategy Unit).shouldContinue state c
  | .all c => (allStrategy Unit).shouldContinue state c

/-- `selectStrategy(config).calculateItemsToEmit(items, state, config)`. -/
def configCalculateItemsToEmit {α : Type} (config : PaginationConfig)
    (items : List α) (state : PaginationState) : List α :=
  match config with
  | .pages c => (byPagesStrategy α).calculateItemsToEmit items state c
  | .records c => (byRecordsStrategy α).calculateItemsToEmit items state c
  | .all c => (allStrategy α).calculateItemsToEmit items state c

/-- `selectStrategy(config).getNextUrl(nextCursor, newRecordCount, config)`. -/
def configGetNextUrl (config : PaginationConfig) (nextCursor : Option String)
    (newRecordCount : Nat) : String :=
  match config with
  | .pages c => (byPagesStrategy Unit).getNextUrl nextCursor newRecordCount c
  | .records c => (byRecordsStrategy Unit).getNextUrl nextCursor newRecordCount c
  | .all c => (allStrategy Unit).getNextUrl nextCursor newRecordCount c

/-- `selectStrategy(config).updateState(state, itemCount, config)`. -/
def configUpdateState (config : PaginationConfig) (state : PaginationState)
    (itemCount : Nat) : PaginationState :=
  match config with
  | .pages c => (byPagesStrategy Unit).updateState state itemCount c
  | .records c => (byRecordsStrategy Unit).updateState state itemCount c
  | .all c => (allStrategy Unit).updateState state itemCount c

/-- Outcome of one step of the `Stream.unfoldEffect` body: terminate before
fetching, terminate after fetching an empty page, emit a page's items and
continue with a new state, or fail with a fetch error. -/
inductive StepResult (α : Type) where
  | stop
  | stopAfterFetch
  | emit (items : List α) (next : PaginationState)
  | fail (message : String)
deriving DecidableEq, Repr

/-- The body of the `Stream.unfoldEffect` in `createPaginatedStream`
(`edlink-client.ts`, strategy-based implementation):
check `!state.nextUrl`, then `strategy.shouldContinue`, then fetch; an
empty (or missing) `$data` terminates; otherwise slice via
`calculateItemsToEmit`, compute `newRecordCount` from the emitted items,
compute the next URL via `getNextUrl`, and advance the state with
`updateState(state, items.length)` (note: the raw page length). -/
def unfoldStep {α : Type} (fetch : String → FetchResult α)
    (config : PaginationConfig) (state : PaginationState) : StepResult α :=
  if state.nextUrl = "" then .stop
  else if !(configShouldContinue config state) then .stop
  else
    match fetch state.nextUrl with
    | .failure msg => .fail msg
    | .success pageData =>
      let items := pageData.data.getD []
      if items.length = 0 then .stopAfterFetch
      else
        let itemsToEmit := configCalculateItemsToEmit config items state
        let newRecordCount := state.recordCount + itemsToEmit.length
        let nextUrl := configGetNextUrl config pageData.next newRecordCount
        let nextState := configUpdateState config state items.length
        .emit itemsToEmit { nextState with nextUrl := nextUrl }

/-- Observable outcome of a whole traversal: the emitted items in order,
the number of page-fetch calls performed, and the surfaced error (if the
stream failed). -/
structure TraversalResult (α : Type) where
  items : List α
  fetches : Nat
  error : Option String
deriving DecidableEq, Repr

/-- Run the strategy-based paginated stream to completion, with fuel to
make the recursion total (`none` = fuel exhausted; every theorem below
supplies enough fuel).  A fetch failure surfaces through the stream's
`mapError` as `Failed to fetch from Edlink API: <cause message>`. -/
def runPaginatedStream {α : Type} (fetch : String → FetchResult α)
    (config : PaginationConfig) : Nat → PaginationState → Option (TraversalResult α)
  | 0, _ => none
  | fuel + 1, state =>
    match unfoldStep fetch config state with
    | .stop => some { items := [], fetches := 0, error := none }
    | .stopAfterFetch => some { items := [], fetches := 1, error := none }
    | .fail msg =>
      some { items := [], fetches := 1
             error := some ("Failed to fetch from Edlink API: " ++ msg) }
    | .emit items next =>
      match runPaginatedStream fetch config fuel next with
      | none => none
      | some r => some { items := items ++ r.items, fetches := r.fetches + 1, error := r.error }

/-- The seed state of the unfold: the fully qualified starting URL with
both counters at zero. -/
def initialState (url : String) : PaginationState :=
  { nextUrl := url, pageCount := 0, recordCount := 0 }

/-- The inline page-limit check of the older implementation
(`paginationStrategy.ts`): `config.type === 'pages' &&
state.pageCount >= config.maxPages`. -/
def legacyPagesLimitReached (config : PaginationConfig) (state : PaginationState) : Bool :=
  match config with
  | .pages c => decide (c.maxPages ≤ state.pageCount)
  | _ => false

/-- The inline record-limit check of the older implementation:
`config.type === 'records' && state.recordCount >= config.maxRecords`. -/
def legacyRecordsLimitReached (config : PaginationConfig) (state : PaginationState) : Bool :=
  match config with
  | .records c => decide (c.maxRecords ≤ state.recordCount)
  | _ => false

/-- The body of the `Stream.unfoldEffect` in the older inline
`createPaginatedStream` (`paginationStrategy.ts`): the limit checks,
truncation, the clamped `newRecordCount`, and the `hasNextPage`
computation are written out directly in the unfold step.  When
`hasNextPage` is false the next state's URL is set to the empty string. -/
def unfoldStepLegacy {α : Type} (fetch : String → FetchResult α)
    (config : PaginationConfig) (state : PaginationState) : StepResult α :=
  if state.nextUrl = "" then .stop
  else if legacyPagesLimitReached config state then .stop
  else if legacyRecordsLimitReached config state then .stop
  else
    match fetch state.nextUrl with
    | .failure msg => .fail msg
    | .success pageData =>
      let items := pageData.data.getD []
      if items.length = 0 then .stopAfterFetch
      else
        let rawRecordCount := state.recordCount + items.length
        let itemsToEmit :=
          match config with
          | .records c =>
            if c.maxRecords < rawRecordCount then
              items.take (c.maxRecords - state.recordCount)
            else items
          | _ => items
        let newRecordCount :=
          match config with
          | .records c =>
            if c.maxRecords < rawRecordCount then c.maxRecords else rawRecordCount
          | _ => rawRecordCount
        let hasNextPage :=
          pageData.next.isSome &&
          (match config with
           | .pages c => decide (state.pageCount + 1 < c.maxPages)
           | _ => true) &&
          (match config with
           | .records c => decide (newRecordCount < c.maxRecords)
           | _ => true)
        if hasNextPage then
          .emit itemsToEmit
            { nextUrl := pageData.next.getD ""
              pageCount := state.pageCount + 1
              recordCount := newRecordCount }
        else
          .emit itemsToEmit
            { nextUrl := ""
              pageCount := state.pageCount + 1
              recordCount := newRecordCount }

/-- Run the older inline paginated stream to completion (fuelled).  Its
`Stream.mapError` discards the cause and surfaces the constant message
`Failed to fetch from Edlink API`. -/
def runPaginatedStreamLegacy {α : Type} (fetch : String → FetchResult α)
    (config : PaginationConfig) : Nat → PaginationState → Option (TraversalResult α)
  | 0, _ => none
  | fuel + 1, state =>
    match unfoldStepLegacy fetch config state with
    | .stop => some { items := [], fetches := 0, error := none }
    | .stopAfterFetch => some { items := [], fetches := 1, error := none }
    | .fail _ =>
      some { items := [], fetches := 1
             error := some "Failed to fetch from Edlink API" }
    | .emit items next =>
      match runPaginatedStreamLegacy fetch config fuel next with
      | none => none
      | some r => some { items := items ++ r.items, fetches := r.fetches + 1, error := r.error }

/-- The URL of the `i`-th server page in the linear-server model:
a non-empty string whose length encodes the page index (`i + 1` copies of
`x`). -/
def pageUrl (i : Nat) : String :=
  ⟨List.replicate (i + 1) 'x'⟩

/-- A linear cursor-based server holding the given sequence of pages:
page `i` responds with `$data` = the `i`-th item list (an empty page
beyond the end of the sequence) and `$next` = the URL of page `i + 1`
when one exists, `null` otherwise.  This is the generic "sequence of
server pages" the quantified claims range over. -/
def linearServer {α : Type} (pages : List (List α)) : String → FetchResult α :=
  fun url =>
    .success
      { data := some ((pages[url.length - 1]?).getD [])
        next := if url.length < pages.length then some (pageUrl url.length) else none }

/-- The items the server makes available from page `i` on: the
concatenation of the pages starting at `i`, up to (excluding) the first
empty page — an empty page is the server's authoritative end-of-data
signal. -/
def availableFrom {α : Type} (pages : List (List α)) (i : Nat) : List α :=
  ((pages.drop i).takeWhile (fun p => !p.isEmpty)).flatten

/-- Total number of items the server makes available to a traversal
starting at page 0. -/
def availableItems {α : Type} (pages : List (List α)) : Nat :=
  (availableFrom pages 0).length

/-- Whether `needle` occurs as a contiguous substring of `hay`; used to
state what information a surfaced error message does or does not carry. -/
def hasSubstring (needle hay : String) : Bool :=
  hay.data.tails.any (fun t => needle.data.isPrefixOf t)

/-- A state from which the strategy-based unfold stops without fetching:
empty `nextUrl` or a failing `shouldContinue` check. -/
def newTerminal (config : PaginationConfig) (state : PaginationState) : Prop :=
  state.nextUrl = "" ∨ configShouldContinue config state = false

/-- A state from which the older inline unfold stops without fetching:
empty `nextUrl` or one of its inline limit checks firing. -/
def legacyTerminal (config : PaginationConfig) (state : PaginationState) : Prop :=
  state.nextUrl = "" ∨ legacyPagesLimitReached config state = true ∨
    legacyRecordsLimitReached config state = true

/-- Simulation relation between the two implementations' states: either the
states coincide, or both are terminal (they can diverge only in the last
state of a traversal, after which neither fetches again). -/
def stateRel (config : PaginationConfig) (s t : PaginationState) : Prop :=
  s = t ∨ (newTerminal config s ∧ legacyTerminal config t)

section Helpers

variable {α : Type}

lemma pageUrl_length (i : Nat) : (pageUrl i).length = i + 1 := by
  show (List.replicate (i + 1) 'x').length = i + 1
  simp only [List.length_replicate]

lemma pageUrl_ne_empty (i : Nat) : pageUrl i ≠ "" := by
  intro h
  have h2 := pageUrl_length i
  rw [h] at h2
  have h3 : ("" : String).length = 0 := rfl
  omega

lemma linearServer_pageUrl (pages : List (List α)) (i : Nat) :
    linearServer pages (pageUrl i) =
      .success
        { data := some ((pages[i]?).getD [])
          next := if i + 1 < pages.length then some (pageUrl (i + 1)) else none } := by
  simp [linearServer, pageUrl_length]

lemma availableFrom_of_length_le (pages : List (List α)) (i : Nat)
    (h : pages.length ≤ i) : availableFrom pages i = [] := by
  simp [availableFrom, List.drop_eq_nil_of_le h]

lemma availableFrom_of_empty (pages : List (List α)) (i : Nat)
    (h : i < pages.length) (he : pages[i] = []) : availableFrom pages i = [] := by
  simp [availableFrom, List.drop_eq_getElem_cons h, List.takeWhile_cons, he]

lemma availableFrom_of_ne_empty (pages : List (List α)) (i : Nat)
    (h : i < pages.length) (he : pages[i] ≠ []) :
    availableFrom pages i = pages[i] ++ availableFrom pages (i + 1) := by
  unfold availableFrom
  rw [List.drop_eq_getElem_cons h, List.takeWhile_cons]
  have hp : (!pages[i].isEmpty) = true := by
    simp [List.isEmpty_iff]
    exact he
  rw [if_pos hp, List.flatten_cons]

lemma configUpdateState_eq (config : PaginationConfig) (state : PaginationState)
    (itemCount : Nat) :
    configUpdateState config state itemCount =
      { nextUrl := state.nextUrl
        pageCount := state.pageCount + 1
        recordCount := state.recordCount + itemCount } := by
  cases config <;> rfl

lemma configShouldContinue_pages (c : PaginateByPages) (state : PaginationState) :
    configShouldContinue (.pages c) state = decide (state.pageCount < c.maxPages) := rfl

lemma configShouldContinue_records (c : PaginateByRecords) (state : PaginationState) :
    configShouldContinue (.records c) state = decide (state.recordCount < c.maxRecords) := rfl

lemma configShouldContinue_all (c : PaginateAll) (state : PaginationState) :
    configShouldContinue (.all c) state = true := rfl

lemma unfoldStep_empty_url (fetch : String → FetchResult α) (config : PaginationConfig)
    (state : PaginationState) (h : state.nextUrl = "") :
    unfoldStep fetch config state = .stop := by
  unfold unfoldStep
  rw [if_pos h]

lemma unfoldStep_no_continue (fetch : String → FetchResult α) (config : PaginationConfig)
    (state : PaginationState) (h1 : state.nextUrl ≠ "")
    (h2 : configShouldContinue config state = false) :
    unfoldStep fetch config state = .stop := by
  unfold unfoldStep
  rw [if_neg h1, h2]
  rfl

lemma unfoldStep_fail (fetch : String → FetchResult α) (config : PaginationConfig)
    (state : PaginationState) (msg : String) (h1 : state.nextUrl ≠ "")
    (h2 : configShouldContinue config state = true)
    (h3 : fetch state.nextUrl = .failure msg) :
    unfoldStep fetch config state = .fail msg := by
  unfold unfoldStep
  rw [if_neg h1, h2, h3]
  rfl

lemma unfoldStep_empty_page (fetch : String → FetchResult α) (config : PaginationConfig)
    (state : PaginationState) (page : EdlinkPaginatedResponse α) (h1 : state.nextUrl ≠ "")
    (h2 : configShouldContinue config state = true)
    (h3 : fetch state.nextUrl = .success page) (h4 : page.data.getD [] = []) :
    unfoldStep fetch config state = .stopAfterFetch := by
  unfold unfoldStep
  rw [if_neg h1, h2, h3]
  simp [h4]

lemma unfoldStep_emit (fetch : String → FetchResult α) (config : PaginationConfig)
    (state : PaginationState) (page : EdlinkPaginatedResponse α) (h1 : state.nextUrl ≠ "")
    (h2 : configShouldContinue config state = true)
    (h3 : fetch state.nextUrl = .success page) (h4 : page.data.getD [] ≠ []) :
    unfoldStep fetch config state =
      .emit (configCalculateItemsToEmit config (page.data.getD []) state)
        { nextUrl :=
            configGetNextUrl config page.next
              (state.recordCount +
                (configCalculateItemsToEmit config (page.data.getD []) state).length)
          pageCount := state.pageCount + 1
          recordCount := state.recordCount + (page.data.getD []).length } := by
  unfold unfoldStep
  rw [if_neg h1, h2, h3]
  have hlen : ¬((page.data.getD []).length = 0) := by
    simpa [List.length_eq_zero] using h4
  simp only [Bool.not_true, Bool.false_eq_true, if_false, hlen, if_neg hlen,
    configUpdateState_eq]

lemma runPaginatedStream_zero (fetch : String → FetchResult α) (config : PaginationConfig)
    (state : PaginationState) :
    runPaginatedStream fetch config 0 state = none := rfl

lemma runPaginatedStream_succ (fetch : String → FetchResult α) (config : PaginationConfig)
    (fuel : Nat) (state : PaginationState) :
    runPaginatedStream fetch config (fuel + 1) state =
      match unfoldStep fetch config state with
      | .stop => some { items := [], fetches := 0, error := none }
      | .stopAfterFetch => some { items := [], fetches := 1, error := none }
      | .fail msg =>
        some { items := [], fetches := 1
               error := some ("Failed to fetch from Edlink API: " ++ msg) }
      | .emit items next =>
        match runPaginatedStream fetch config fuel next with
        | none => none
        | some r =>
          some { items := items ++ r.items, fetches := r.fetches + 1, error := r.error } := rfl

lemma runPaginatedStream_stop (fetch : String → FetchResult α) (config : PaginationConfig)
    (state : PaginationState) (fuel : Nat) (h : unfoldStep fetch config state = .stop) :
    runPaginatedStream fetch config (fuel + 1) state =
      some { items := [], fetches := 0, error := none } := by
  unfold runPaginatedStream
  rw [h]

lemma runPaginatedStream_stopAfterFetch (fetch : String → FetchResult α)
    (config : PaginationConfig) (state : PaginationState) (fuel : Nat)
    (h : unfoldStep fetch config state = .stopAfterFetch) :
    runPaginatedStream fetch config (fuel + 1) state =
      some { items := [], fetches := 1, error := none } := by
  unfold runPaginatedStream
  rw [h]

lemma runPaginatedStream_fail (fetch : String → FetchResult α)
    (config : PaginationConfig) (state : PaginationState) (fuel : Nat) (msg : String)
    (h : unfoldStep fetch config state = .fail msg) :
    runPaginatedStream fetch config (fuel + 1) state =
      some { items := [], fetches := 1
             error := some ("Failed to fetch from Edlink API: " ++ msg) } := by
  unfold runPaginatedStream
  rw [h]

lemma runPaginatedStream_emit (fetch : String → FetchResult α)
    (config : PaginationConfig) (state next : PaginationState) (fuel : Nat)
    (items : List α) (h : unfoldStep fetch config state = .emit items next) :
    runPaginatedStream fetch config (fuel + 1) state =
      match runPaginatedStream fetch config fuel next with
      | none => none
      | some r =>
        some { items := items ++ r.items, fetches := r.fetches + 1, error := r.error } := by
  rw [runPaginatedStream_succ, h]

lemma runPaginatedStream_empty_url (fetch : String → FetchResult α)
    (config : PaginationConfig) (state : PaginationState) (fuel : Nat)
    (h : state.nextUrl = "") :
    runPaginatedStream fetch config (fuel + 1) state =
      some { items := [], fetches := 0, error := none } :=
  runPaginatedStream_stop fetch config state fuel (unfoldStep_empty_url fetch config state h)

end Helpers

section TraversalLemmas

variable {α : Type}

lemma calc_records (c : PaginateByRecords) (items : List α) (state : PaginationState) :
    configCalculateItemsToEmit (.records c) items state =
      if state.recordCount + items.length ≤ c.maxRecords then items
      else items.take (c.maxRecords - state.recordCount) := rfl

lemma getNextUrl_records (c : PaginateByRecords) (cursor : Option String) (n : Nat) :
    configGetNextUrl (.records c) cursor n =
      if decide (c.maxRecords ≤ n) || jsFalsyCursor cursor then "" else cursor.getD "" := rfl

lemma jsFalsyCursor_pageUrl (j : Nat) : jsFalsyCursor (some (pageUrl j)) = false := by
  simp [jsFalsyCursor]
  exact pageUrl_ne_empty j

lemma run_from_empty (fetch : String → FetchResult α) (config : PaginationConfig)
    (state : PaginationState) (h : state.nextUrl = "") (fuel : Nat) (hf : 1 ≤ fuel) :
    runPaginatedStream fetch config fuel state =
      some { items := [], fetches := 0, error := none } := by
  obtain ⟨k, rfl⟩ : ∃ k, fuel = k + 1 := ⟨fuel - 1, by omega⟩
  exact runPaginatedStream_empty_url fetch config state k h

lemma run_records_linear (pages : List (List α)) (M : Nat) :
    ∀ (fuel i pc rc : Nat), pages.length - i + 2 ≤ fuel → rc < M →
      ∃ n, runPaginatedStream (linearServer pages) (.records ⟨M⟩) fuel
          { nextUrl := pageUrl i, pageCount := pc, recordCount := rc } =
        some { items := (availableFrom pages i).take (M - rc), fetches := n, error := none } := by
  intro fuel
  induction fuel with
  | zero => intro i pc rc hfuel hrc; omega
  | succ fuel ih =>
    intro i pc rc hfuel hrc
    have hne : ({ nextUrl := pageUrl i, pageCount := pc, recordCount := rc } : PaginationState).nextUrl ≠ "" :=
      pageUrl_ne_empty i
    have hcont : configShouldContinue (.records ⟨M⟩)
        { nextUrl := pageUrl i, pageCount := pc, recordCount := rc } = true := by
      rw [configShouldContinue_records]
      exact decide_eq_true hrc
    have hfetch : linearServer pages
        ({ nextUrl := pageUrl i, pageCount := pc, recordCount := rc } : PaginationState).nextUrl =
        .success
          { data := some ((pages[i]?).getD [])
            next := if i + 1 < pages.length then some (pageUrl (i + 1)) else none } :=
      linearServer_pageUrl pages i
    by_cases hib : i < pages.length
    · by_cases hpe : pages[i] = []
      · -- empty page at i ends the traversal
        have hdata : (((pages[i]?).getD []) : List α) = [] := by
          rw [List.getElem?_eq_getElem hib]
          simpa using hpe
        have hstep := unfoldStep_empty_page (linearServer pages) (.records ⟨M⟩) _ _ hne hcont hfetch (by simpa using hdata)
        rw [runPaginatedStream_stopAfterFetch _ _ _ _ hstep]
        refine ⟨1, ?_⟩
        rw [availableFrom_of_empty pages i hib hpe]
        simp
      · -- non-empty page at i
        have hdata : (((pages[i]?).getD []) : List α) = pages[i] := by
          rw [List.getElem?_eq_getElem hib]
          rfl
        have hstep := unfoldStep_emit (linearServer pages) (.records ⟨M⟩) _ _ hne hcont hfetch
          (by simpa [hdata] using hpe)
        rw [hdata] at hstep
        simp only [Option.getD_some] at hstep
        rw [calc_records] at hstep
        simp only at hstep
        rcases Nat.lt_trichotomy (rc + pages[i].length) M with hA | hB | hC
        · -- page fits strictly below the limit: emit it all and continue
          rw [if_pos (Nat.le_of_lt hA)] at hstep
          rw [getNextUrl_records] at hstep
          rw [decide_eq_false (by omega : ¬ M ≤ rc + pages[i].length)] at hstep
          simp only [Bool.false_or] at hstep
          by_cases hip : i + 1 < pages.length
          · rw [if_pos hip] at hstep
            rw [jsFalsyCursor_pageUrl] at hstep
            simp only [if_false, Option.getD_some, Bool.false_eq_true] at hstep
            obtain ⟨n, hrest⟩ := ih (i + 1) (pc + 1) (rc + pages[i].length) (by omega) hA
            rw [runPaginatedStream_emit _ _ _ _ fuel _ hstep, hrest]
            refine ⟨n + 1, ?_⟩
            rw [availableFrom_of_ne_empty pages i hib hpe]
            rw [List.take_append_eq_append_take]
            rw [List.take_of_length_le (by omega : pages[i].length ≤ M - rc)]
            have : M - rc - pages[i].length = M - (rc + pages[i].length) := by omega
            rw [this]
          · rw [if_neg hip] at hstep
            simp only [jsFalsyCursor, Bool.or_true, if_true] at hstep
            rw [runPaginatedStream_emit _ _ _ _ fuel _ hstep]
            rw [run_from_empty _ _ _ rfl fuel (by omega)]
            refine ⟨0 + 1, ?_⟩
            rw [availableFrom_of_ne_empty pages i hib hpe]
            rw [availableFrom_of_length_le pages (i + 1) (by omega)]
            rw [List.append_nil, List.take_of_length_le (by omega : pages[i].length ≤ M - rc)]
            simp
        · -- page lands exactly on the limit: emit it all, next URL forced empty
          rw [if_pos (Nat.le_of_eq hB)] at hstep
          rw [getNextUrl_records] at hstep
          rw [decide_eq_true (by omega : M ≤ rc + pages[i].length)] at hstep
          simp only [Bool.true_or, if_true] at hstep
          rw [runPaginatedStream_emit _ _ _ _ fuel _ hstep]
          rw [run_from_empty _ _ _ rfl fuel (by omega)]
          refine ⟨0 + 1, ?_⟩
          rw [availableFrom_of_ne_empty pages i hib hpe]
          rw [List.take_append_eq_append_take]
          rw [List.take_of_length_le (by omega : pages[i].length ≤ M - rc)]
          have h0 : M - rc - pages[i].length = 0 := by omega
          rw [h0]
          simp
        · -- page overshoots the limit: emit a prefix, next URL forced empty
          rw [if_neg (by omega : ¬ rc + pages[i].length ≤ M)] at hstep
          have hlen : (pages[i].take (M - rc)).length = M - rc := by
            rw [List.length_take]
            omega
          rw [hlen] at hstep
          rw [getNextUrl_records] at hstep
          rw [decide_eq_true (by omega : M ≤ rc + (M - rc))] at hstep
          simp only [Bool.true_or, if_true] at hstep
          rw [runPaginatedStream_emit _ _ _ _ fuel _ hstep]
          rw [run_from_empty _ _ _ rfl fuel (by omega)]
          refine ⟨0 + 1, ?_⟩
          rw [availableFrom_of_ne_empty pages i hib hpe]
          rw [List.take_append_eq_append_take]
          have h0 : M - rc - pages[i].length = 0 := by omega
          rw [h0]
          simp
    · -- i out of range: server answers with an empty page
      have hdata : (((pages[i]?).getD []) : List α) = [] := by
        rw [List.getElem?_eq_none (by omega)]
        rfl
      have hstep := unfoldStep_empty_page (linearServer pages) (.records ⟨M⟩) _ _ hne hcont hfetch (by simpa using hdata)
      rw [runPaginatedStream_stopAfterFetch _ _ _ _ hstep]
      refine ⟨1, ?_⟩
      rw [availableFrom_of_length_le pages i (by omega)]
      simp

end TraversalLemmas

section TraversalLemmas2

variable {α : Type}

lemma unfoldStep_not_stop_inv (fetch : String → FetchResult α) (config : PaginationConfig)
    (state : PaginationState) (h : unfoldStep fetch config state ≠ .stop) :
    state.nextUrl ≠ "" ∧ configShouldContinue config state = true := by
  by_cases h1 : state.nextUrl = ""
  · exact absurd (unfoldStep_empty_url fetch config state h1) h
  · refine ⟨h1, ?_⟩
    by_cases h2 : configShouldContinue config state = true
    · exact h2
    · exact absurd (unfoldStep_no_continue fetch config state h1 (by simpa using h2)) h

lemma unfoldStep_emit_inv (fetch : String → FetchResult α) (config : PaginationConfig)
    (state next : PaginationState) (items : List α)
    (h : unfoldStep fetch config state = .emit items next) :
    state.nextUrl ≠ "" ∧ configShouldContinue config state = true ∧
    ∃ page, fetch state.nextUrl = .success page ∧ page.data.getD [] ≠ [] ∧
      items = configCalculateItemsToEmit config (page.data.getD []) state ∧
      next =
        { nextUrl :=
            configGetNextUrl config page.next
              (state.recordCount +
                (configCalculateItemsToEmit config (page.data.getD []) state).length)
          pageCount := state.pageCount + 1
          recordCount := state.recordCount + (page.data.getD []).length } := by
  obtain ⟨h1, h2⟩ := unfoldStep_not_stop_inv fetch config state (by rw [h]; simp)
  refine ⟨h1, h2, ?_⟩
  cases hfr : fetch state.nextUrl with
  | failure msg =>
    rw [unfoldStep_fail fetch config state msg h1 h2 hfr] at h
    cases h
  | success page =>
    by_cases hd : page.data.getD [] = []
    · rw [unfoldStep_empty_page fetch config state page h1 h2 hfr hd] at h
      cases h
    · rw [unfoldStep_emit fetch config state page h1 h2 hfr hd] at h
      injection h with hitems hnext
      exact ⟨page, rfl, hd, hitems.symm ▸ ⟨rfl, by rw [← hnext, ← hitems]⟩⟩

lemma run_empty_url_inv (fetch : String → FetchResult α) (config : PaginationConfig)
    (state : PaginationState) (fuel : Nat) (r : TraversalResult α)
    (hurl : state.nextUrl = "")
    (h : runPaginatedStream fetch config fuel state = some r) :
    r = { items := [], fetches := 0, error := none } := by
  cases fuel with
  | zero => rw [runPaginatedStream_zero] at h; cases h
  | succ fuel =>
    rw [runPaginatedStream_empty_url fetch config state fuel hurl] at h
    exact (Option.some_injective _ h).symm

lemma calc_takes_front (config : PaginationConfig) (items : List α) (state : PaginationState) :
    configCalculateItemsToEmit config items state <+: items := by
  cases config with
  | pages c => exact List.prefix_refl _
  | all c => exact List.prefix_refl _
  | records c =>
    rw [calc_records]
    by_cases hc : state.recordCount + items.length ≤ c.maxRecords
    · rw [if_pos hc]
    · rw [if_neg hc]
      exact List.take_prefix _ _

lemma run_linear_items_aux (pages : List (List α)) (config : PaginationConfig) :
    ∀ (fuel i pc rc : Nat) (r : TraversalResult α),
      runPaginatedStream (linearServer pages) config fuel
        { nextUrl := pageUrl i, pageCount := pc, recordCount := rc } = some r →
      r.items <+: availableFrom pages i := by
  intro fuel
  induction fuel with
  | zero => intro i pc rc r h; rw [runPaginatedStream_zero] at h; cases h
  | succ fuel ih =>
    intro i pc rc r h
    cases hstep : unfoldStep (linearServer pages) config
        { nextUrl := pageUrl i, pageCount := pc, recordCount := rc } with
    | stop =>
      rw [runPaginatedStream_stop _ _ _ _ hstep] at h
      obtain rfl : _ = r := Option.some_injective _ h
      exact List.nil_prefix
    | stopAfterFetch =>
      rw [runPaginatedStream_stopAfterFetch _ _ _ _ hstep] at h
      obtain rfl : _ = r := Option.some_injective _ h
      exact List.nil_prefix
    | fail msg =>
      rw [runPaginatedStream_fail _ _ _ _ _ hstep] at h
      obtain rfl : _ = r := Option.some_injective _ h
      exact List.nil_prefix
    | emit items next =>
      obtain ⟨h1, h2, page, hfr, hd, hitems, hnext⟩ :=
        unfoldStep_emit_inv _ _ _ _ _ hstep
      rw [linearServer_pageUrl pages i] at hfr
      injection hfr with hpage
      subst hpage
      simp only [Option.getD_some] at hd hitems hnext
      have hib : i < pages.length := by
        by_contra hni
        apply hd
        rw [List.getElem?_eq_none (by omega)]
        rfl
      have hdata : (pages[i]?.getD []) = pages[i] := by
        rw [List.getElem?_eq_getElem hib]
        rfl
      rw [hdata] at hd hitems hnext
      have hpe : pages[i] ≠ [] := hd
      have hchunk : items <+: pages[i] := hitems ▸ calc_takes_front config pages[i] _
      rw [runPaginatedStream_emit _ _ _ _ fuel _ hstep] at h
      cases hrest : runPaginatedStream (linearServer pages) config fuel next with
      | none => rw [hrest] at h; cases h
      | some rr =>
        rw [hrest] at h
        obtain rfl : _ = r := Option.some_injective _ h
        rw [availableFrom_of_ne_empty pages i hib hpe]
        rw [← hitems] at hnext
        by_cases hurl : next.nextUrl = ""
        · -- traversal ends after this page: only the chunk is emitted
          obtain rfl : rr = { items := [], fetches := 0, error := none } :=
            run_empty_url_inv _ _ _ _ _ hurl hrest
          show items ++ [] <+: pages[i] ++ availableFrom pages (i + 1)
          rw [List.append_nil]
          exact hchunk.trans ( List.prefix_append _ _)
        · -- traversal continues: the chunk is the whole page and the next URL
          -- is the cursor supplied by the linear server
          have hip : i + 1 < pages.length := by
            by_contra hnip
            apply hurl
            rw [hnext]
            show configGetNextUrl config _ _ = ""
            rw [if_neg hnip]
            cases config with
            | pages c => rfl
            | all c => rfl
            | records c =>
              show (if _ || jsFalsyCursor none then "" else _) = ""
              simp [jsFalsyCursor]
          rw [if_pos hip] at hnext
          have hfull : items = pages[i] ∧
              configGetNextUrl config (some (pageUrl (i + 1))) (rc + items.length) =
                pageUrl (i + 1) := by
            cases config with
            | pages c => exact ⟨hitems, rfl⟩
            | all c => exact ⟨hitems, rfl⟩
            | records c =>
              have hrc : rc < c.maxRecords := by
                rw [configShouldContinue_records] at h2
                exact of_decide_eq_true h2
              rw [calc_records] at hitems
              simp only at hitems
              by_cases hle : rc + pages[i].length ≤ c.maxRecords
              · rw [if_pos hle] at hitems
                refine ⟨hitems, ?_⟩
                by_cases hstopd : c.maxRecords ≤ rc + items.length
                · exfalso
                  apply hurl
                  rw [hnext]
                  show (if decide (c.maxRecords ≤ rc + items.length) || _ then "" else _) = ""
                  rw [decide_eq_true hstopd]
                  rfl
                · show (if decide (c.maxRecords ≤ rc + items.length) || _ then "" else _) =
                    pageUrl (i + 1)
                  rw [decide_eq_false hstopd, jsFalsyCursor_pageUrl]
                  rfl
              · exfalso
                apply hurl
                rw [if_neg hle] at hitems
                have hlen : items.length = c.maxRecords - rc := by
                  rw [hitems, List.length_take]
                  omega
                rw [hnext]
                show (if decide (c.maxRecords ≤ rc + items.length) || _ then "" else _) = ""
                rw [decide_eq_true (by omega : c.maxRecords ≤ rc + items.length)]
                rfl
          obtain ⟨hfi, hnu⟩ := hfull
          rw [hnu] at hnext
          rw [hnext] at hrest
          have htail := ih (i + 1) (pc + 1) (rc + pages[i].length) rr hrest
          obtain ⟨t, ht⟩ := htail
          refine ⟨t, ?_⟩
          rw [← ht, hfi, List.append_assoc]

lemma run_pages_fetch_bound (fetch : String → FetchResult α) (N : Nat) :
    ∀ (fuel : Nat) (state : PaginationState) (r : TraversalResult α),
      runPaginatedStream fetch (.pages ⟨N⟩) fuel state = some r →
      r.fetches ≤ N - state.pageCount := by
  intro fuel
  induction fuel with
  | zero =>
    intro s r h
    rw [runPaginatedStream_zero] at h
    cases h
  | succ fuel ih =>
    intro s r h
    cases hstep : unfoldStep fetch (.pages ⟨N⟩) s with
    | stop =>
      rw [runPaginatedStream_stop _ _ _ _ hstep] at h
      obtain rfl : _ = r := Option.some_injective _ h
      simp
    | stopAfterFetch =>
      obtain ⟨h1, h2⟩ := unfoldStep_not_stop_inv fetch _ s (by rw [hstep]; simp)
      rw [configShouldContinue_pages] at h2
      have hpc : s.pageCount < N := of_decide_eq_true h2
      rw [runPaginatedStream_stopAfterFetch _ _ _ _ hstep] at h
      obtain rfl : _ = r := Option.some_injective _ h
      show 1 ≤ N - s.pageCount
      omega
    | fail msg =>
      obtain ⟨h1, h2⟩ := unfoldStep_not_stop_inv fetch _ s (by rw [hstep]; simp)
      rw [configShouldContinue_pages] at h2
      have hpc : s.pageCount < N := of_decide_eq_true h2
      rw [runPaginatedStream_fail _ _ _ _ _ hstep] at h
      obtain rfl : _ = r := Option.some_injective _ h
      show 1 ≤ N - s.pageCount
      omega
    | emit items next =>
      obtain ⟨h1, h2, page, hfr, hd, hitems, hnext⟩ :=
        unfoldStep_emit_inv fetch _ s next items hstep
      rw [configShouldContinue_pages] at h2
      have hpc : s.pageCount < N := of_decide_eq_true h2
      rw [runPaginatedStream_emit _ _ _ _ fuel _ hstep] at h
      cases hrest : runPaginatedStream fetch (.pages ⟨N⟩) fuel next with
      | none => rw [hrest] at h; cases h
      | some rr =>
        rw [hrest] at h
        obtain rfl : _ = r := Option.some_injective _ h
        have hb := ih next rr hrest
        have hnpc : next.pageCount = s.pageCount + 1 := by rw [hnext]
        show rr.fetches + 1 ≤ N - s.pageCount
        rw [hnpc] at hb
        omega

lemma run_records_take (pages : List (List α)) (M : Nat) (fuel : Nat)
    (hfuel : pages.length + 2 ≤ fuel) :
    ∃ n, runPaginatedStream (linearServer pages) (.records ⟨M⟩) fuel
        (initialState (pageUrl 0)) =
      some { items := (availableFrom pages 0).take M, fetches := n, error := none } := by
  rcases Nat.eq_zero_or_pos M with hM | hM
  · subst hM
    have hstop := unfoldStep_no_continue (linearServer pages) (.records ⟨0⟩)
      (initialState (pageUrl 0)) (pageUrl_ne_empty 0) (by rw [configShouldContinue_records]; simp)
    obtain ⟨k, rfl⟩ : ∃ k, fuel = k + 1 := ⟨fuel - 1, by omega⟩
    rw [runPaginatedStream_stop _ _ _ _ hstop]
    exact ⟨0, by simp⟩
  · obtain ⟨n, h⟩ := run_records_linear pages M (fuel) 0 0 0 (by omega) hM
    exact ⟨n, by simpa [initialState] using h⟩

lemma availableFrom_zero_append (pages : List (List α)) :
    ∃ t, availableFrom pages 0 ++ t = pages.flatten := by
  refine ⟨((pages.dropWhile (fun p => !p.isEmpty)).flatten), ?_⟩
  rw [availableFrom, List.drop_zero, ← List.flatten_append,
    List.takeWhile_append_dropWhile]

end TraversalLemmas2

section EquivalenceLemmas

variable {α : Type}

lemma legacy_continue_iff (config : PaginationConfig) (state : PaginationState) :
    (legacyPagesLimitReached config state = false ∧
      legacyRecordsLimitReached config state = false) ↔
    configShouldContinue config state = true := by
  cases config with
  | pages c =>
    simp [legacyPagesLimitReached, legacyRecordsLimitReached, configShouldContinue,
      byPagesStrategy]
  | records c =>
    simp [legacyPagesLimitReached, legacyRecordsLimitReached, configShouldContinue,
      byRecordsStrategy]
  | all c =>
    simp [legacyPagesLimitReached, legacyRecordsLimitReached, configShouldContinue,
      allStrategy]

lemma unfoldStepLegacy_empty_url (fetch : String → FetchResult α) (config : PaginationConfig)
    (state : PaginationState) (h : state.nextUrl = "") :
    unfoldStepLegacy fetch config state = .stop := by
  unfold unfoldStepLegacy
  rw [if_pos h]

lemma unfoldStepLegacy_stop_of_no_continue (fetch : String → FetchResult α)
    (config : PaginationConfig) (state : PaginationState) (h1 : state.nextUrl ≠ "")
    (h2 : configShouldContinue config state = false) :
    unfoldStepLegacy fetch config state = .stop := by
  unfold unfoldStepLegacy
  rw [if_neg h1]
  by_cases hp : legacyPagesLimitReached config state = true
  · rw [hp]
    rfl
  · have hr : legacyRecordsLimitReached config state = true := by
      by_contra hrc
      have := (legacy_continue_iff config state).mp
        ⟨by simpa using hp, by simpa using hrc⟩
      rw [h2] at this
      cases this
    rw [hr]
    simp only [Bool.false_eq_true, if_false, if_true]
    rw [(by simpa using hp : legacyPagesLimitReached config state = false)]
    rfl

lemma unfoldStepLegacy_fail (fetch : String → FetchResult α) (config : PaginationConfig)
    (state : PaginationState) (msg : String) (h1 : state.nextUrl ≠ "")
    (hp : legacyPagesLimitReached config state = false)
    (hr : legacyRecordsLimitReached config state = false)
    (h3 : fetch state.nextUrl = .failure msg) :
    unfoldStepLegacy fetch config state = .fail msg := by
  unfold unfoldStepLegacy
  rw [if_neg h1, hp, hr, h3]
  rfl

lemma unfoldStepLegacy_empty_page (fetch : String → FetchResult α)
    (config : PaginationConfig) (state : PaginationState)
    (page : EdlinkPaginatedResponse α) (h1 : state.nextUrl ≠ "")
    (hp : legacyPagesLimitReached config state = false)
    (hr : legacyRecordsLimitReached config state = false)
    (h3 : fetch state.nextUrl = .success page) (h4 : page.data.getD [] = []) :
    unfoldStepLegacy fetch config state = .stopAfterFetch := by
  unfold unfoldStepLegacy
  rw [if_neg h1, hp, hr, h3]
  simp [h4]

lemma unfoldStepLegacy_emit_pages (fetch : String → FetchResult α) (c : PaginateByPages)
    (state : PaginationState) (page : EdlinkPaginatedResponse α) (h1 : state.nextUrl ≠ "")
    (hp : legacyPagesLimitReached (.pages c) state = false)
    (h3 : fetch state.nextUrl = .success page) (hd : page.data.getD [] ≠ []) :
    unfoldStepLegacy fetch (.pages c) state =
      .emit (page.data.getD [])
        { nextUrl :=
            if page.next.isSome && decide (state.pageCount + 1 < c.maxPages) then
              page.next.getD ""
            else ""
          pageCount := state.pageCount + 1
          recordCount := state.recordCount + (page.data.getD []).length } := by
  have hr : legacyRecordsLimitReached (.pages c) state = false := rfl
  unfold unfoldStepLegacy
  rw [if_neg h1, hp, hr, h3]
  have hlen : ¬((page.data.getD []).length = 0) := by
    simpa [List.length_eq_zero] using hd
  simp only [Bool.false_eq_true, if_false, if_neg hlen, Bool.and_true]
  cases hnp : (page.next.isSome && decide (state.pageCount + 1 < c.maxPages)) with
  | true => simp
  | false => simp

lemma unfoldStepLegacy_emit_all (fetch : String → FetchResult α) (c : PaginateAll)
    (state : PaginationState) (page : EdlinkPaginatedResponse α) (h1 : state.nextUrl ≠ "")
    (h3 : fetch state.nextUrl = .success page) (hd : page.data.getD [] ≠ []) :
    unfoldStepLegacy fetch (.all c) state =
      .emit (page.data.getD [])
        { nextUrl := if page.next.isSome then page.next.getD "" else ""
          pageCount := state.pageCount + 1
          recordCount := state.recordCount + (page.data.getD []).length } := by
  have hp : legacyPagesLimitReached (.all c) state = false := rfl
  have hr : legacyRecordsLimitReached (.all c) state = false := rfl
  unfold unfoldStepLegacy
  rw [if_neg h1, hp, hr, h3]
  have hlen : ¬((page.data.getD []).length = 0) := by
    simpa [List.length_eq_zero] using hd
  simp only [Bool.false_eq_true, if_false, if_neg hlen, Bool.and_true]
  cases hnp : page.next.isSome with
  | true => simp
  | false => simp

lemma unfoldStepLegacy_emit_records (fetch : String → FetchResult α)
    (c : PaginateByRecords) (state : PaginationState) (page : EdlinkPaginatedResponse α)
    (h1 : state.nextUrl ≠ "")
    (hr : legacyRecordsLimitReached (.records c) state = false)
    (h3 : fetch state.nextUrl = .success page) (hd : page.data.getD [] ≠ []) :
    unfoldStepLegacy fetch (.records c) state =
      .emit
        (if c.maxRecords < state.recordCount + (page.data.getD []).length then
          (page.data.getD []).take (c.maxRecords - state.recordCount)
         else page.data.getD [])
        { nextUrl :=
            if page.next.isSome &&
               decide ((if c.maxRecords < state.recordCount + (page.data.getD []).length then
                          c.maxRecords
                        else state.recordCount + (page.data.getD []).length) < c.maxRecords) then
              page.next.getD ""
            else ""
          pageCount := state.pageCount + 1
          recordCount :=
            if c.maxRecords < state.recordCount + (page.data.getD []).length then c.maxRecords
            else state.recordCount + (page.data.getD []).length } := by
  have hp : legacyPagesLimitReached (.records c) state = false := rfl
  unfold unfoldStepLegacy
  rw [if_neg h1, hp, hr, h3]
  have hlen : ¬((page.data.getD []).length = 0) := by
    simpa [List.length_eq_zero] using hd
  simp only [Bool.false_eq_true, if_false, if_neg hlen, Bool.true_and, Bool.and_true]
  cases hnp : (page.next.isSome &&
      decide ((if c.maxRecords < state.recordCount + (page.data.getD []).length then
                 c.maxRecords
               else state.recordCount + (page.data.getD []).length) < c.maxRecords)) with
  | true => simp
  | false => simp

lemma step_emit_match (fetch : String → FetchResult α) (config : PaginationConfig)
    (state : PaginationState) (page : EdlinkPaginatedResponse α)
    (h1 : state.nextUrl ≠ "") (h2 : configShouldContinue config state = true)
    (h3 : fetch state.nextUrl = .success page) (hd : page.data.getD [] ≠ []) :
    ∃ e snew sleg,
      unfoldStep fetch config state = .emit e snew ∧
      unfoldStepLegacy fetch config state = .emit e sleg ∧
      stateRel config snew sleg := by
  have hnew := unfoldStep_emit fetch config state page h1 h2 h3 hd
  obtain ⟨hp, hr⟩ := (legacy_continue_iff config state).mpr h2
  cases config with
  | pages c =>
    have hleg := unfoldStepLegacy_emit_pages fetch c state page h1 hp h3 hd
    refine ⟨page.data.getD [], _, _, hnew, hleg, ?_⟩
    by_cases hlt : state.pageCount + 1 < c.maxPages
    · left
      cases hcur : page.next with
      | none => simp [configGetNextUrl, byPagesStrategy, hcur]
      | some v => simp [configGetNextUrl, byPagesStrategy, hcur, hlt]
    · right
      constructor
      · right
        rw [configShouldContinue_pages]
        simp only
        rw [decide_eq_false hlt]
      · left
        simp [hlt]
  | all c =>
    have hleg := unfoldStepLegacy_emit_all fetch c state page h1 h3 hd
    refine ⟨page.data.getD [], _, _, hnew, hleg, ?_⟩
    left
    cases hcur : page.next with
    | none => simp [configGetNextUrl, allStrategy, hcur]
    | some v => simp [configGetNextUrl, allStrategy, hcur]
  | records c =>
    have hleg := unfoldStepLegacy_emit_records fetch c state page h1 hr h3 hd
    have hrc : state.recordCount < c.maxRecords := by
      rw [configShouldContinue_records] at h2
      exact of_decide_eq_true h2
    by_cases hle : state.recordCount + (page.data.getD []).length ≤ c.maxRecords
    · -- no truncation
      have hee : configCalculateItemsToEmit (.records c) (page.data.getD []) state =
          page.data.getD [] := by
        rw [calc_records, if_pos hle]
      rw [hee] at hnew
      rw [if_neg (by omega : ¬ c.maxRecords <
          state.recordCount + (page.data.getD []).length)] at hleg
      rw [if_neg (by omega : ¬ c.maxRecords <
          state.recordCount + (page.data.getD []).length)] at hleg
      refine ⟨page.data.getD [], _, _, hnew, hleg, ?_⟩
      by_cases heq : state.recordCount + (page.data.getD []).length = c.maxRecords
      · left
        rw [getNextUrl_records]
        rw [decide_eq_true (by omega : c.maxRecords ≤
          state.recordCount + (page.data.getD []).length)]
        rw [decide_eq_false (by omega : ¬ state.recordCount + (page.data.getD []).length <
          c.maxRecords)]
        simp
      · left
        rw [getNextUrl_records]
        rw [decide_eq_false (by omega : ¬ c.maxRecords ≤
          state.recordCount + (page.data.getD []).length)]
        rw [decide_eq_true (by omega : state.recordCount + (page.data.getD []).length <
          c.maxRecords)]
        cases hcur : page.next with
        | none => simp [jsFalsyCursor]
        | some v =>
          by_cases hv : v = ""
          · simp [jsFalsyCursor, hv]
          · simp [jsFalsyCursor, hv]
    · -- truncation: both implementations stop at this page boundary
      have hee : configCalculateItemsToEmit (.records c) (page.data.getD []) state =
          (page.data.getD []).take (c.maxRecords - state.recordCount) := by
        rw [calc_records, if_neg hle]
      rw [hee] at hnew
      rw [if_pos (by omega : c.maxRecords <
          state.recordCount + (page.data.getD []).length)] at hleg
      rw [if_pos (by omega : c.maxRecords <
          state.recordCount + (page.data.getD []).length)] at hleg
      refine ⟨(page.data.getD []).take (c.maxRecords - state.recordCount), _, _,
        hnew, hleg, ?_⟩
      right
      have hlen : ((page.data.getD []).take (c.maxRecords - state.recordCount)).length =
          c.maxRecords - state.recordCount := by
        rw [List.length_take]
        omega
      constructor
      · left
        rw [hlen, getNextUrl_records]
        rw [decide_eq_true (by omega : c.maxRecords ≤
          state.recordCount + (c.maxRecords - state.recordCount))]
        rfl
      · left
        rw [decide_eq_false (by omega : ¬ c.maxRecords < c.maxRecords)]
        simp

lemma runPaginatedStreamLegacy_zero (fetch : String → FetchResult α)
    (config : PaginationConfig) (state : PaginationState) :
    runPaginatedStreamLegacy fetch config 0 state = none := rfl

lemma runPaginatedStreamLegacy_succ (fetch : String → FetchResult α)
    (config : PaginationConfig) (fuel : Nat) (state : PaginationState) :
    runPaginatedStreamLegacy fetch config (fuel + 1) state =
      match unfoldStepLegacy fetch config state with
      | .stop => some { items := [], fetches := 0, error := none }
      | .stopAfterFetch => some { items := [], fetches := 1, error := none }
      | .fail _ =>
        some { items := [], fetches := 1
               error := some "Failed to fetch from Edlink API" }
      | .emit items next =>
        match runPaginatedStreamLegacy fetch config fuel next with
        | none => none
        | some r =>
          some { items := items ++ r.items, fetches := r.fetches + 1, error := r.error } := rfl

lemma runPaginatedStreamLegacy_stop (fetch : String → FetchResult α)
    (config : PaginationConfig) (state : PaginationState) (fuel : Nat)
    (h : unfoldStepLegacy fetch config state = .stop) :
    runPaginatedStreamLegacy fetch config (fuel + 1) state =
      some { items := [], fetches := 0, error := none } := by
  rw [runPaginatedStreamLegacy_succ, h]

lemma runPaginatedStreamLegacy_stopAfterFetch (fetch : String → FetchResult α)
    (config : PaginationConfig) (state : PaginationState) (fuel : Nat)
    (h : unfoldStepLegacy fetch config state = .stopAfterFetch) :
    runPaginatedStreamLegacy fetch config (fuel + 1) state =
      some { items := [], fetches := 1, error := none } := by
  rw [runPaginatedStreamLegacy_succ, h]

lemma runPaginatedStreamLegacy_fail (fetch : String → FetchResult α)
    (config : PaginationConfig) (state : PaginationState) (fuel : Nat) (msg : String)
    (h : unfoldStepLegacy fetch config state = .fail msg) :
    runPaginatedStreamLegacy fetch config (fuel + 1) state =
      some { items := [], fetches := 1
             error := some "Failed to fetch from Edlink API" } := by
  rw [runPaginatedStreamLegacy_succ, h]

lemma runPaginatedStreamLegacy_emit (fetch : String → FetchResult α)
    (config : PaginationConfig) (state next : PaginationState) (fuel : Nat)
    (items : List α) (h : unfoldStepLegacy fetch config state = .emit items next) :
    runPaginatedStreamLegacy fetch config (fuel + 1) state =
      match runPaginatedStreamLegacy fetch config fuel next with
      | none => none
      | some r =>
        some { items := items ++ r.items, fetches := r.fetches + 1, error := r.error } := by
  rw [runPaginatedStreamLegacy_succ, h]

lemma unfoldStep_stop_of_terminal (fetch : String → FetchResult α)
    (config : PaginationConfig) (state : PaginationState)
    (h : newTerminal config state) : unfoldStep fetch config state = .stop := by
  by_cases hu : state.nextUrl = ""
  · exact unfoldStep_empty_url fetch config state hu
  · rcases h with h | h
    · exact absurd h hu
    · exact unfoldStep_no_continue fetch config state hu h

lemma unfoldStepLegacy_stop_of_terminal (fetch : String → FetchResult α)
    (config : PaginationConfig) (state : PaginationState)
    (h : legacyTerminal config state) : unfoldStepLegacy fetch config state = .stop := by
  by_cases hu : state.nextUrl = ""
  · exact unfoldStepLegacy_empty_url fetch config state hu
  · have hcont : configShouldContinue config state = false := by
      rcases h with h | h | h
      · exact absurd h hu
      · by_contra hcc
        rw [Bool.not_eq_false] at hcc
        obtain ⟨hp2, _⟩ := (legacy_continue_iff config state).mpr hcc
        rw [h] at hp2
        cases hp2
      · by_contra hcc
        rw [Bool.not_eq_false] at hcc
        obtain ⟨_, hr2⟩ := (legacy_continue_iff config state).mpr hcc
        rw [h] at hr2
        cases hr2
    exact unfoldStepLegacy_stop_of_no_continue fetch config state hu hcont

lemma run_equiv (fetch : String → FetchResult α) (config : PaginationConfig) :
    ∀ (fuel : Nat) (s t : PaginationState), stateRel config s t →
      (runPaginatedStream fetch config fuel s).map
          (fun r => (r.items, r.fetches, r.error.isSome)) =
        (runPaginatedStreamLegacy fetch config fuel t).map
          (fun r => (r.items, r.fetches, r.error.isSome)) := by
  intro fuel
  induction fuel with
  | zero => intro s t _; rfl
  | succ fuel ih =>
    intro s t hrel
    rcases hrel with rfl | ⟨hsT, htT⟩
    · -- the two traversals share the same state
      by_cases hu : s.nextUrl = ""
      · rw [runPaginatedStream_stop _ _ _ _ (unfoldStep_empty_url _ _ _ hu),
            runPaginatedStreamLegacy_stop _ _ _ _ (unfoldStepLegacy_empty_url _ _ _ hu)]
      · by_cases hc : configShouldContinue config s = true
        · obtain ⟨hp, hr⟩ := (legacy_continue_iff config s).mpr hc
          cases hfr : fetch s.nextUrl with
          | failure msg =>
            rw [runPaginatedStream_fail _ _ _ _ _ (unfoldStep_fail _ _ _ _ hu hc hfr),
                runPaginatedStreamLegacy_fail _ _ _ _ _
                  (unfoldStepLegacy_fail _ _ _ _ hu hp hr hfr)]
            rfl
          | success page =>
            by_cases hd : page.data.getD [] = []
            · rw [runPaginatedStream_stopAfterFetch _ _ _ _
                    (unfoldStep_empty_page _ _ _ _ hu hc hfr hd),
                  runPaginatedStreamLegacy_stopAfterFetch _ _ _ _
                    (unfoldStepLegacy_empty_page _ _ _ _ hu hp hr hfr hd)]
            · obtain ⟨e, snew, sleg, hnew, hleg, hrel2⟩ :=
                step_emit_match fetch config s page hu hc hfr hd
              rw [runPaginatedStream_emit _ _ _ _ fuel _ hnew,
                  runPaginatedStreamLegacy_emit _ _ _ _ fuel _ hleg]
              have hihe := ih snew sleg hrel2
              cases hnr : runPaginatedStream fetch config fuel snew with
              | none =>
                rw [hnr] at hihe
                cases hlr : runPaginatedStreamLegacy fetch config fuel sleg with
                | none => rfl
                | some rr => rw [hlr] at hihe; simp at hihe
              | some rr =>
                rw [hnr] at hihe
                cases hlr : runPaginatedStreamLegacy fetch config fuel sleg with
                | none => rw [hlr] at hihe; simp at hihe
                | some rr2 =>
                  rw [hlr] at hihe
                  simp at hihe
                  obtain ⟨hi, hf, he⟩ := hihe
                  simp [hi, hf, he]
        · rw [runPaginatedStream_stop _ _ _ _
                (unfoldStep_no_continue _ _ _ hu (by simpa using hc)),
              runPaginatedStreamLegacy_stop _ _ _ _
                (unfoldStepLegacy_stop_of_no_continue _ _ _ hu (by simpa using hc))]
    · -- both states are terminal: both traversals stop without fetching
      rw [runPaginatedStream_stop _ _ _ _ (unfoldStep_stop_of_terminal _ _ _ hsT),
          runPaginatedStreamLegacy_stop _ _ _ _ (unfoldStepLegacy_stop_of_terminal _ _ _ htT)]

end EquivalenceLemmas

section Claims

variable {α : Type}

/-- **C1.**  For every `maxRecords = M ≥ 0` and every sequence of server
pages, a traversal under the records policy (`{type: 'records',
maxRecords: M}`) emits exactly `min(M, total available items)` items
(where the items available from the server are those up to its
authoritative end-of-data signal, the first empty page), and when at
least `M` items are available the last emitted item is the `M`-th item in
server order. -/
theorem records_policy_record_limit (M : Nat) (pages : List (List α)) (fuel : Nat)
    (hfuel : pages.length + 2 ≤ fuel) (r : TraversalResult α)
    (hrun : runPaginatedStream (linearServer pages) (.records ⟨M⟩) fuel
      (initialState (pageUrl 0)) = some r) :
    r.items.length = min M (availableItems pages) ∧
    (0 < M → M ≤ availableItems pages →
      r.items.getLast? = pages.flatten[M - 1]?) := by
  obtain ⟨n, heq⟩ := run_records_take pages M fuel hfuel
  rw [heq] at hrun
  obtain rfl : ({ items := (availableFrom pages 0).take M, fetches := n, error := none } :
      TraversalResult α) = r :=
    Option.some_injective _ hrun
  constructor
  · simp [availableItems, List.length_take]
  · intro hM hMa
    have hlen : (availableFrom pages 0).length = availableItems pages := rfl
    have h1 : ((availableFrom pages 0).take M).length = M := by
      rw [List.length_take]
      omega
    show ((availableFrom pages 0).take M).getLast? = pages.flatten[M - 1]?
    rw [List.getLast?_eq_getElem?, h1, List.getElem?_take]
    rw [if_pos (by omega : M - 1 < M)]
    obtain ⟨t, ht⟩ := availableFrom_zero_append pages
    rw [← ht, List.getElem?_append]
    rw [if_pos (by rw [hlen]; omega : M - 1 < (availableFrom pages 0).length)]

/-- Witness for C1: a two-page server `[[10], [20, 30]]` under
`maxRecords = 2` emits `[10, 20]`, whose length is `min 2 3` and whose
last element is the second item in server order. -/
theorem records_policy_record_limit_witness :
    (({ items := [10, 20], fetches := 2, error := none } : TraversalResult Nat).items.length
        = min 2 (availableItems [[10], [20, 30]])) ∧
    (0 < 2 → 2 ≤ availableItems [[10], [20, 30]] →
      ({ items := [10, 20], fetches := 2, error := none } : TraversalResult Nat).items.getLast?
        = ([[10], [20, 30]] : List (List Nat)).flatten[2 - 1]?) :=
  records_policy_record_limit 2 [[10], [20, 30]] 5 (by decide)
    { items := [10, 20], fetches := 2, error := none } (by decide)

/-- **C2.**  For every `maxPages = N ≥ 0` and every server, a traversal
under the pages policy (`{type: 'pages', maxPages: N}`) performs at most
`N` page-fetch calls, regardless of how many pages the server reports
available; in particular with `maxPages = 0` it yields no items and makes
no fetch calls, because the `shouldContinue` check at `pageCount = 0`
fails before the first fetch. -/
theorem pages_policy_fetch_limit (fetch : String → FetchResult α) (N fuel : Nat)
    (url : String) (r : TraversalResult α)
    (hrun : runPaginatedStream fetch (.pages ⟨N⟩) fuel (initialState url) = some r) :
    r.fetches ≤ N ∧
    (N = 0 → r = { items := [], fetches := 0, error := none } ∧
      configShouldContinue (.pages ⟨0⟩) (initialState url) = false) := by
  constructor
  · have hb := run_pages_fetch_bound fetch N fuel (initialState url) r hrun
    simpa [initialState] using hb
  · rintro rfl
    refine ⟨?_, by rw [configShouldContinue_pages]; simp⟩
    by_cases hu : url = ""
    · exact run_empty_url_inv _ _ _ _ _ (by simpa [initialState] using hu) hrun
    · cases fuel with
      | zero => rw [runPaginatedStream_zero] at hrun; cases hrun
      | succ fuel =>
        have hstop := unfoldStep_no_continue fetch (.pages ⟨0⟩) (initialState url)
          (by simpa [initialState] using hu) (by rw [configShouldContinue_pages]; simp)
        rw [runPaginatedStream_stop _ _ _ _ hstop] at hrun
        exact (Option.some_injective _ hrun).symm

/-- Witness for C2: under `maxPages = 0` over a two-page server the
traversal makes zero fetches and yields nothing, and the `shouldContinue`
check already fails at the initial state. -/
theorem pages_policy_fetch_limit_witness :
    (({ items := [], fetches := 0, error := none } : TraversalResult Nat).fetches ≤ 0) ∧
    ((0 : Nat) = 0 →
      ({ items := [], fetches := 0, error := none } : TraversalResult Nat) =
        { items := [], fetches := 0, error := none } ∧
      configShouldContinue (.pages ⟨0⟩) (initialState (pageUrl 0)) = false) :=
  pages_policy_fetch_limit (linearServer [[1], [2]]) 0 5 (pageUrl 0)
    { items := [], fetches := 0, error := none } (by decide)

/-- **C3.**  For every policy, if a fetched page has zero items (a missing
`$data` field counts as an empty page), the traversal ends immediately
with no further fetch and no error, even if the page carried a non-null
next cursor. -/
theorem empty_page_terminates (fetch : String → FetchResult α) (config : PaginationConfig)
    (state : PaginationState) (page : EdlinkPaginatedResponse α) (fuel : Nat)
    (h1 : state.nextUrl ≠ "") (h2 : configShouldContinue config state = true)
    (h3 : fetch state.nextUrl = .success page)
    (h4 : page.data = none ∨ page.data = some [])
    (h5 : 1 ≤ fuel) :
    runPaginatedStream fetch config fuel state =
      some { items := [], fetches := 1, error := none } := by
  obtain ⟨k, rfl⟩ : ∃ k, fuel = k + 1 := ⟨fuel - 1, by omega⟩
  have hd : page.data.getD [] = [] := by rcases h4 with h | h <;> simp [h]
  exact runPaginatedStream_stopAfterFetch _ _ _ _
    (unfoldStep_empty_page fetch config state page h1 h2 h3 hd)

/-- Witness for C3: a server whose response has no `$data` field but a
non-null cursor terminates an `{type: 'all'}` traversal after that one
fetch, cleanly. -/
theorem empty_page_terminates_witness :
    runPaginatedStream (fun _ => (.success ⟨none, some "more"⟩ : FetchResult Nat))
        (.all ⟨⟩) 3 { nextUrl := "u", pageCount := 0, recordCount := 0 } =
      some { items := [], fetches := 1, error := none } :=
  empty_page_terminates _ _ _ ⟨none, some "more"⟩ 3 (by decide) rfl rfl
    (Or.inl rfl) (by decide)

/-- **C4.**  Order preservation: every per-page slice computed by
`calculateItemsToEmit` is a prefix of the fetched page (truncation never
drops earlier items), and over a linear server the whole emitted sequence
is a prefix of the concatenation, in page order and within-page order, of
the items the server makes available — no reordering, no duplication. -/
theorem order_preservation (config : PaginationConfig) :
    (∀ (items : List α) (state : PaginationState),
      configCalculateItemsToEmit config items state <+: items) ∧
    (∀ (pages : List (List α)) (fuel : Nat) (r : TraversalResult α),
      runPaginatedStream (linearServer pages) config fuel
        (initialState (pageUrl 0)) = some r →
      r.items <+: availableFrom pages 0) := by
  constructor
  · intro items state
    exact calc_takes_front config items state
  · intro pages fuel r h
    exact run_linear_items_aux pages config fuel 0 0 0 r h

/-- Witness for C4: the records policy slices `[5, 6]` to a prefix, and a
concrete truncated traversal emits a prefix of the server's items. -/
theorem order_preservation_witness :
    (configCalculateItemsToEmit (.records ⟨1⟩) [5, 6]
      { nextUrl := "u", pageCount := 0, recordCount := 0 } <+: [5, 6]) ∧
    (({ items := [10], fetches := 1, error := none } : TraversalResult Nat).items <+:
      availableFrom [[10, 20]] 0) :=
  ⟨(order_preservation (.records ⟨1⟩)).1 [5, 6]
      { nextUrl := "u", pageCount := 0, recordCount := 0 },
   (order_preservation (.records ⟨1⟩)).2 [[10, 20]] 5
      { items := [10], fetches := 1, error := none } (by decide)⟩

/-- **C5.**  End-to-end example: a server returning `{$data: [a,b,c],
$next: "p2"}` then `{$data: [d,e], $next: null}` (items rendered here as
`1..5`) yields exactly `[a,b,c,d,e]` in 2 fetches under `{type: 'pages',
maxPages: 3}`, and exactly `[a,b,c,d]` in 2 fetches under `{type:
'records', maxRecords: 4}` — the second page truncated to one item and no
third fetch issued. -/
theorem example_end_to_end :
    runPaginatedStream (linearServer [[1, 2, 3], [4, 5]]) (.pages ⟨3⟩) 10
        (initialState (pageUrl 0)) =
      some { items := [1, 2, 3, 4, 5], fetches := 2, error := none } ∧
    runPaginatedStream (linearServer [[1, 2, 3], [4, 5]]) (.records ⟨4⟩) 10
        (initialState (pageUrl 0)) =
      some { items := [1, 2, 3, 4], fetches := 2, error := none } := by
  constructor <;> decide

/-- **C6 (amended).**  At every emit step of the strategy-based traversal
`pageCount` advances by exactly one and `recordCount` grows monotonically;
but `recordCount` advances by the *raw* number of items on the fetched
page (`updateState(state, items.length, ...)` in `edlink-client.ts`), of
which the emitted post-slicing chunk is only a lower bound, so
`recordCount` equals the total items fetched (hence emitted-so-far ≤
recordCount ≤ total fetched), not the post-slicing emitted count. -/
theorem counts_monotone_raw (fetch : String → FetchResult α) (config : PaginationConfig)
    (state next : PaginationState) (items : List α) (page : EdlinkPaginatedResponse α)
    (hfr : fetch state.nextUrl = .success page)
    (h : unfoldStep fetch config state = .emit items next) :
    next.pageCount = state.pageCount + 1 ∧
    next.recordCount = state.recordCount + (page.data.getD []).length ∧
    state.recordCount ≤ next.recordCount ∧
    items.length ≤ (page.data.getD []).length := by
  obtain ⟨h1, h2, page2, hfr2, hd, hitems, hnext⟩ := unfoldStep_emit_inv _ _ _ _ _ h
  rw [hfr] at hfr2
  injection hfr2 with hpg
  subst hpg
  refine ⟨by rw [hnext], by rw [hnext], ?_, ?_⟩
  · rw [hnext]
    show state.recordCount ≤ state.recordCount + _
    omega
  rw [hitems]
  exact List.IsPrefix.length_le (calc_takes_front config _ _)

/-- Witness for C6 (amended): the concrete step that fetches `[1, 2]`
under `maxRecords = 1` advances `pageCount` to 1 and `recordCount` to the
raw count 2, of which the emitted chunk `[1]` is a lower bound. -/
theorem counts_monotone_raw_witness :
    (({ nextUrl := "", pageCount := 1, recordCount := 2 } : PaginationState).pageCount =
      ({ nextUrl := "u", pageCount := 0, recordCount := 0 } : PaginationState).pageCount + 1) ∧
    (({ nextUrl := "", pageCount := 1, recordCount := 2 } : PaginationState).recordCount =
      ({ nextUrl := "u", pageCount := 0, recordCount := 0 } : PaginationState).recordCount +
        ((some [1, 2] : Option (List Nat)).getD []).length) ∧
    (({ nextUrl := "u", pageCount := 0, recordCount := 0 } : PaginationState).recordCount ≤
      ({ nextUrl := "", pageCount := 1, recordCount := 2 } : PaginationState).recordCount) ∧
    ([1] : List Nat).length ≤ ((some [1, 2] : Option (List Nat)).getD []).length :=
  counts_monotone_raw (fun _ => .success ⟨some [1, 2], none⟩) (.records ⟨1⟩)
    { nextUrl := "u", pageCount := 0, recordCount := 0 }
    { nextUrl := "", pageCount := 1, recordCount := 2 } [1] ⟨some [1, 2], none⟩
    rfl (by decide)

/-- Counterexample to C6 as stated: under `{type: 'records', maxRecords:
1}` a fetched page `[1, 2]` emits the single item `[1]`, yet the state
after the step carries `recordCount = 2` — the raw fetched count, not the
number of items emitted post-slicing (which is 1). -/
theorem counts_not_post_slicing_counterexample :
    unfoldStep (fun _ => (.success ⟨some [1, 2], none⟩ : FetchResult Nat)) (.records ⟨1⟩)
        { nextUrl := "u", pageCount := 0, recordCount := 0 } =
      .emit [1] { nextUrl := "", pageCount := 1, recordCount := 2 } ∧
    ([1] : List Nat).length = 1 ∧ (2 : Nat) ≠ 1 :=
  ⟨by decide, rfl, by decide⟩

/-- **C7.**  Under the records policy, once the new record count reaches
or exceeds `maxRecords` the policy's next-URL computation returns the
empty string even when the server supplied a cursor, so the traversal
stops at that page boundary before any further fetch; under the pages and
all policies the server cursor is passed through unchanged unless
absent. -/
theorem records_limit_stops_at_boundary :
    (∀ (M n : Nat) (cursor : Option String), M ≤ n →
      configGetNextUrl (.records ⟨M⟩) cursor n = "") ∧
    (∀ (fetch : String → FetchResult α) (M : Nat) (state next : PaginationState)
        (items : List α),
      unfoldStep fetch (.records ⟨M⟩) state = .emit items next →
      M ≤ state.recordCount + items.length → next.nextUrl = "") ∧
    (∀ (fetch : String → FetchResult α) (config : PaginationConfig)
        (state : PaginationState) (fuel : Nat), state.nextUrl = "" → 1 ≤ fuel →
      runPaginatedStream fetch config fuel state =
        some { items := [], fetches := 0, error := none }) ∧
    (∀ (c : PaginateByPages) (cursor : Option String) (n : Nat),
      configGetNextUrl (.pages c) cursor n = cursor.getD "") ∧
    (∀ (c : PaginateAll) (cursor : Option String) (n : Nat),
      configGetNextUrl (.all c) cursor n = cursor.getD "") := by
  have hforce : ∀ (M n : Nat) (cursor : Option String), M ≤ n →
      configGetNextUrl (.records ⟨M⟩) cursor n = "" := by
    intro M n cursor hMn
    rw [getNextUrl_records]
    rw [decide_eq_true hMn]
    rfl
  refine ⟨hforce, ?_, ?_, fun _ _ _ => rfl, fun _ _ _ => rfl⟩
  · intro fetch M state next items h hM
    obtain ⟨h1, h2, page, hfr, hd, hitems, hnext⟩ := unfoldStep_emit_inv _ _ _ _ _ h
    rw [← hitems] at hnext
    rw [hnext]
    exact hforce M _ page.next hM
  · intro fetch config state fuel hurl hf
    exact run_from_empty fetch config state hurl fuel hf

/-- Witness for C7: a cursor `"p2"` is discarded once the count reaches
the limit; the concrete truncating step lands on an empty `nextUrl`; a
state with empty `nextUrl` terminates with zero fetches; and both other
policies pass `"p2"` through. -/
theorem records_limit_stops_at_boundary_witness :
    configGetNextUrl (.records ⟨2⟩) (some "p2") 3 = "" ∧
    (({ nextUrl := "", pageCount := 1, recordCount := 2 } : PaginationState).nextUrl = "") ∧
    (runPaginatedStream (fun _ => (.failure "never called" : FetchResult Nat)) (.all ⟨⟩) 4
        { nextUrl := "", pageCount := 3, recordCount := 9 } =
      some { items := [], fetches := 0, error := none }) ∧
    configGetNextUrl (.pages ⟨7⟩) (some "p2") 3 = (some "p2").getD "" ∧
    configGetNextUrl (.all ⟨⟩) (some "p2") 3 = (some "p2").getD "" :=
  ⟨(records_limit_stops_at_boundary (α := Nat)).1 2 3 (some "p2") (by decide),
   ((records_limit_stops_at_boundary (α := Nat)).2.1
      (fun _ => .success ⟨some [1, 2], some "p2"⟩) 1
      { nextUrl := "u", pageCount := 0, recordCount := 0 }
      { nextUrl := "", pageCount := 1, recordCount := 2 } [1] (by decide) (by decide)),
   (records_limit_stops_at_boundary (α := Nat)).2.2.1 _ _ _ 4 rfl (by decide),
   (records_limit_stops_at_boundary (α := Nat)).2.2.2.1 ⟨7⟩ (some "p2") 3,
   (records_limit_stops_at_boundary (α := Nat)).2.2.2.2 ⟨⟩ (some "p2") 3⟩

/-- **C8 (amended).**  When the page fetch fails, the stream terminates
with an error that wraps the original cause's message behind the fixed
prefix `Failed to fetch from Edlink API: `; the failed page is not
silently skipped.  The failing URL, however, is not added to the surfaced
error by the pagination code. -/
theorem fetch_failure_surfaces_error (fetch : String → FetchResult α)
    (config : PaginationConfig) (state : PaginationState) (msg : String) (fuel : Nat)
    (h1 : state.nextUrl ≠ "") (h2 : configShouldContinue config state = true)
    (h3 : fetch state.nextUrl = .failure msg) (h5 : 1 ≤ fuel) :
    runPaginatedStream fetch config fuel state =
      some { items := [], fetches := 1
             error := some ("Failed to fetch from Edlink API: " ++ msg) } := by
  obtain ⟨k, rfl⟩ : ∃ k, fuel = k + 1 := ⟨fuel - 1, by omega⟩
  exact runPaginatedStream_fail _ _ _ _ _
    (unfoldStep_fail fetch config state msg h1 h2 h3)

/-- Witness for C8 (amended): a failing fetch with cause `"boom"` ends the
stream with the wrapped cause message. -/
theorem fetch_failure_surfaces_error_witness :
    runPaginatedStream (fun _ => (.failure "boom" : FetchResult Nat)) (.all ⟨⟩) 3
        { nextUrl := "https://ed.link/v2/graph/events", pageCount := 0, recordCount := 0 } =
      some { items := [], fetches := 1
             error := some ("Failed to fetch from Edlink API: " ++ "boom") } :=
  fetch_failure_surfaces_error _ _ _ "boom" 3 (by decide) rfl rfl (by decide)

/-- Counterexample to C8 as stated: the URL
`https://ed.link/v2/graph/events` fails with cause `"boom"`, and the
surfaced error is exactly the prefixed cause message, which does not
contain the URL that failed — the error wraps the cause but not the
URL. -/
theorem fetch_error_lacks_url_counterexample :
    runPaginatedStream (fun _ => (.failure "boom" : FetchResult Nat)) (.all ⟨⟩) 3
        { nextUrl := "https://ed.link/v2/graph/events", pageCount := 0, recordCount := 0 } =
      some { items := [], fetches := 1
             error := some "Failed to fetch from Edlink API: boom" } ∧
    hasSubstring "https://ed.link/v2/graph/events"
      "Failed to fetch from Edlink API: boom" = false := by
  constructor
  · decide
  · decide

/-- **C9.**  For every configuration value on which none of the three
runtime type guards holds (tag `'pages'` with numeric `maxPages`, tag
`'records'` with numeric `maxRecords`, tag `'all'`), `selectStrategy`
fails fast by throwing rather than silently choosing a default. -/
theorem unknown_config_fails_fast (config : RawPaginationConfig)
    (h1 : isPaginateByPages config = false)
    (h2 : isPaginateByRecords config = false)
    (h3 : isPaginateAll config = false) :
    selectStrategy config =
      .error ("Unknown pagination config type: " ++ config.type) := by
  unfold selectStrategy
  rw [h1, h2, h3]
  rfl

/-- Witness for C9: a descriptor tagged `'pages'` but with no numeric
`maxPages` field satisfies none of the guards, and selection throws. -/
theorem unknown_config_fails_fast_witness :
    selectStrategy ⟨"pages", none, none⟩ =
      .error ("Unknown pagination config type: " ++
        (⟨"pages", none, none⟩ : RawPaginationConfig).type) :=
  unknown_config_fails_fast ⟨"pages", none, none⟩ (by decide) (by decide) (by decide)

/-- **C10.**  For every policy and every server, the strategy-based
paginated-stream implementation (`edlink-client.ts`) and the older inline
implementation (`paginationStrategy.ts`) emit the same item sequence and
perform the same number of page fetches (and fail at the same point). -/
theorem strategy_inline_equivalence (fetch : String → FetchResult α)
    (config : PaginationConfig) (fuel : Nat) (url : String) :
    (runPaginatedStream fetch config fuel (initialState url)).map
        (fun r => (r.items, r.fetches, r.error.isSome)) =
      (runPaginatedStreamLegacy fetch config fuel (initialState url)).map
        (fun r => (r.items, r.fetches, r.error.isSome)) :=
  run_equiv fetch config fuel (initialState url) (initialState url) (Or.inl rfl)

end Claims
